import Mathlib

/-!
Shallow embedding of the messenger storage layer of this repository:
`app/models/cassandra_models.py` together with the table schema declared in
`scripts/setup_db.py`.  UUIDs are modelled as `Nat`, timestamps as `Nat`
(microseconds since epoch), Cassandra tables as lists of rows whose writes
upsert by primary key, and a partition read returns the partition's rows in
the table's clustering order.  Python's stable `list.sort` is modelled by
`List.insertionSort` (a stable sort, hence the same function on lists as
CPython's timsort for a fixed key).  Python list slicing, including its
negative-index clamping, is modelled by `pySlice`.
-/

namespace Messenger

/-- A row of the `messages` table
(`PRIMARY KEY (conversation_id, timestamp, message_id)`,
clustering `timestamp DESC, message_id ASC`). -/
structure Msg where
  conversation_id : Nat
  timestamp : Nat
  message_id : Nat
  sender_id : Nat
  receiver_id : Nat
  content : String
  deriving DecidableEq, Repr

/-- A row of the `messages_by_user` table
(`PRIMARY KEY ((user_id), conversation_id, timestamp, message_id)`). -/
structure MsgByUser where
  user_id : Nat
  conversation_id : Nat
  timestamp : Nat
  message_id : Nat
  sender_id : Nat
  receiver_id : Nat
  content : String
  deriving DecidableEq, Repr

/-- A row of the `conversations` table (`PRIMARY KEY (conversation_id)`).
Non-key columns are nullable, which matters because the `UPDATE` issued by
`create_message` upserts a row whose user columns are null when the
conversation row does not exist yet. -/
structure ConvRow where
  conversation_id : Nat
  user1_id : Option Nat
  user2_id : Option Nat
  created_at : Option Nat
  last_message_at : Option Nat
  last_message_content : Option String
  deriving DecidableEq, Repr

/-- A row of the `conversations_by_user` table
(`PRIMARY KEY (user_id, last_message_at, conversation_id)`,
clustering `last_message_at DESC, conversation_id ASC`). -/
structure ConvIndexEntry where
  user_id : Nat
  conversation_id : Nat
  other_user_id : Nat
  last_message_at : Nat
  last_message_content : String
  deriving DecidableEq, Repr

/-- The keyspace: the four tables touched by the model layer
(the `users` table is never read or written by it). -/
structure Store where
  messages : List Msg
  messages_by_user : List MsgByUser
  conversations : List ConvRow
  conversations_by_user : List ConvIndexEntry
  deriving DecidableEq, Repr

/-- The message dictionary shape returned by the paginated message reads. -/
structure MessageOut where
  id : Nat
  conversation_id : Nat
  sender_id : Nat
  receiver_id : Nat
  content : String
  created_at : Nat
  deriving DecidableEq, Repr

/-- The dictionary returned by `create_message` (it additionally carries the
never-set `read_at` field). -/
structure MessageCreated where
  id : Nat
  conversation_id : Nat
  sender_id : Nat
  receiver_id : Nat
  content : String
  created_at : Nat
  read_at : Option Nat
  deriving DecidableEq, Repr

/-- The conversation dictionary returned by `get_conversation` and inside
`get_user_conversations`. -/
structure ConvOut where
  id : Nat
  user1_id : Option Nat
  user2_id : Option Nat
  last_message_at : Option Nat
  last_message_content : Option String
  deriving DecidableEq, Repr

/-- The conversation dictionary returned by `create_or_get_conversation`
(it additionally carries `created_at`). -/
structure ConvFull where
  id : Nat
  user1_id : Option Nat
  user2_id : Option Nat
  created_at : Option Nat
  last_message_at : Option Nat
  last_message_content : Option String
  deriving DecidableEq, Repr

/-- The `{'total': ..., 'page': ..., 'limit': ..., 'data': [...]}` shape of
every paginated read.  `page` and `limit` are Python ints, hence `Int`. -/
structure Paginated (α : Type) where
  total : Nat
  page : Int
  limit : Int
  data : List α
  deriving DecidableEq, Repr

/-- Python's normalisation of one slice bound `i` for a list of length `n`:
negative indices count from the end and everything is clamped into
`[0, n]`. -/
def pyIdx (n : Nat) (i : Int) : Nat :=
  if i < 0 then (i + n).toNat else min i.toNat n

/-- Python's `l[start:stop]` (step 1). -/
def pySlice {α : Type} (l : List α) (start stop : Int) : List α :=
  (l.take (pyIdx l.length stop)).drop (pyIdx l.length start)

/-- Clustering order of the `messages` partition:
`timestamp DESC, message_id ASC`. -/
def msgClusterR (a b : Msg) : Prop :=
  b.timestamp < a.timestamp ∨
    (a.timestamp = b.timestamp ∧ a.message_id ≤ b.message_id)

instance : DecidableRel msgClusterR := fun a b =>
  inferInstanceAs (Decidable (b.timestamp < a.timestamp ∨
    (a.timestamp = b.timestamp ∧ a.message_id ≤ b.message_id)))

instance : IsTotal Msg msgClusterR :=
  ⟨by intro a b; unfold msgClusterR; omega⟩

instance : IsTrans Msg msgClusterR :=
  ⟨by intro a b c; unfold msgClusterR; omega⟩

/-- The key Python's `sort(key=..., reverse=True)` call orders by in the
message reads: timestamp descending (a stable sort, so ties keep their
incoming relative order). -/
def msgTsDescR (a b : Msg) : Prop := b.timestamp ≤ a.timestamp

instance : DecidableRel msgTsDescR := fun a b =>
  inferInstanceAs (Decidable (b.timestamp ≤ a.timestamp))

instance : IsTotal Msg msgTsDescR := ⟨by intro a b; unfold msgTsDescR; omega⟩

instance : IsTrans Msg msgTsDescR :=
  ⟨by intro a b c; unfold msgTsDescR; omega⟩

/-- Clustering order of the `conversations_by_user` partition:
`last_message_at DESC, conversation_id ASC`. -/
def convIndexClusterR (a b : ConvIndexEntry) : Prop :=
  b.last_message_at < a.last_message_at ∨
    (a.last_message_at = b.last_message_at ∧
      a.conversation_id ≤ b.conversation_id)

instance : DecidableRel convIndexClusterR := fun a b =>
  inferInstanceAs (Decidable (b.last_message_at < a.last_message_at ∨
    (a.last_message_at = b.last_message_at ∧
      a.conversation_id ≤ b.conversation_id)))

instance : IsTotal ConvIndexEntry convIndexClusterR :=
  ⟨by intro a b; unfold convIndexClusterR; omega⟩

instance : IsTrans ConvIndexEntry convIndexClusterR :=
  ⟨by intro a b c; unfold convIndexClusterR; omega⟩

/-- `SELECT ... FROM messages WHERE conversation_id = %s`: the partition's
rows in clustering order. -/
def selectMessages (s : Store) (cid : Nat) : List Msg :=
  List.insertionSort msgClusterR
    (s.messages.filter (fun m => m.conversation_id == cid))

/-- `SELECT ... FROM conversations_by_user WHERE user_id = %s`: the
partition's rows in clustering order. -/
def selectUserConversations (s : Store) (uid : Nat) : List ConvIndexEntry :=
  List.insertionSort convIndexClusterR
    (s.conversations_by_user.filter (fun e => e.user_id == uid))

/-- `SELECT * FROM conversations WHERE conversation_id = %s`:
lookup by full primary key. -/
def selectConversationRows (s : Store) (cid : Nat) : List ConvRow :=
  s.conversations.filter (fun r => r.conversation_id == cid)

/-- `SELECT * FROM conversations WHERE user1_id = %s AND user2_id = %s ALLOW
FILTERING`: an unindexed scan-and-filter over the whole table. -/
def selectConversationsByPair (s : Store) (u1 u2 : Nat) : List ConvRow :=
  s.conversations.filter
    (fun r => r.user1_id == some u1 && r.user2_id == some u2)

/-- Primary key of a `messages` row. -/
def msgKey (m : Msg) : Nat × Nat × Nat :=
  (m.conversation_id, m.timestamp, m.message_id)

/-- Cassandra `INSERT` into `messages`: an upsert keyed by the primary key;
every column is listed, so a key match replaces the whole row. -/
def insertMessageRow (rows : List Msg) (row : Msg) : List Msg :=
  if rows.any (fun r => msgKey r == msgKey row) then
    rows.map (fun r => if msgKey r == msgKey row then row else r)
  else rows ++ [row]

/-- Primary key of a `messages_by_user` row. -/
def msgByUserKey (m : MsgByUser) : Nat × Nat × Nat × Nat :=
  (m.user_id, m.conversation_id, m.timestamp, m.message_id)

/-- Cassandra `INSERT` into `messages_by_user`: upsert by primary key. -/
def insertMsgByUserRow (rows : List MsgByUser) (row : MsgByUser) :
    List MsgByUser :=
  if rows.any (fun r => msgByUserKey r == msgByUserKey row) then
    rows.map (fun r => if msgByUserKey r == msgByUserKey row then row else r)
  else rows ++ [row]

/-- Primary key of a `conversations_by_user` row.  Note that
`last_message_at` is part of the key. -/
def convIndexKey (e : ConvIndexEntry) : Nat × Nat × Nat :=
  (e.user_id, e.last_message_at, e.conversation_id)

/-- Cassandra `INSERT` into `conversations_by_user`: upsert by primary
key. -/
def insertConvIndexRow (rows : List ConvIndexEntry) (row : ConvIndexEntry) :
    List ConvIndexEntry :=
  if rows.any (fun r => convIndexKey r == convIndexKey row) then
    rows.map (fun r => if convIndexKey r == convIndexKey row then row else r)
  else rows ++ [row]

/-- The `UPDATE conversations SET last_message_at = %s, last_message_content
= %s WHERE conversation_id = %s` issued by `create_message`.  Cassandra
`UPDATE` upserts: when no row with the key exists it creates one whose
remaining columns are null. -/
def updateConversationLastMessage (rows : List ConvRow) (cid ts : Nat)
    (content : String) : List ConvRow :=
  if rows.any (fun r => r.conversation_id == cid) then
    rows.map (fun r =>
      if r.conversation_id == cid then
        { r with last_message_at := some ts,
                 last_message_content := some content }
      else r)
  else
    rows ++ [{ conversation_id := cid, user1_id := none, user2_id := none,
               created_at := none, last_message_at := some ts,
               last_message_content := some content }]

/-- The `INSERT INTO conversations (conversation_id, user1_id, user2_id,
created_at, last_message_at)` issued by `create_or_get_conversation`:
`last_message_content` is not listed, so on a key match that column keeps
its previous value. -/
def insertConversationRow (rows : List ConvRow) (row : ConvRow) :
    List ConvRow :=
  if rows.any (fun r => r.conversation_id == row.conversation_id) then
    rows.map (fun r =>
      if r.conversation_id == row.conversation_id then
        { row with last_message_content := r.last_message_content }
      else r)
  else rows ++ [row]

/-- `MessageModel.create_message`.  The freshly generated
`datetime.utcnow()` timestamp and `uuid4()` message id are explicit
arguments of the model. -/
def create_message (s : Store) (sender_id receiver_id : Nat)
    (content : String) (conversation_id : Nat) (timestamp message_id : Nat) :
    Store × MessageCreated :=
  let msgRow : Msg :=
    { conversation_id := conversation_id, timestamp := timestamp,
      message_id := message_id, sender_id := sender_id,
      receiver_id := receiver_id, content := content }
  let messages1 := insertMessageRow s.messages msgRow
  let mbuRow : Nat → MsgByUser := fun u =>
    { user_id := u, conversation_id := conversation_id,
      timestamp := timestamp, message_id := message_id,
      sender_id := sender_id, receiver_id := receiver_id,
      content := content }
  let mbu1 :=
    insertMsgByUserRow
      (insertMsgByUserRow s.messages_by_user (mbuRow sender_id))
      (mbuRow receiver_id)
  let convs1 :=
    updateConversationLastMessage s.conversations conversation_id timestamp
      content
  let cbuRow : Nat → ConvIndexEntry := fun u =>
    { user_id := u, conversation_id := conversation_id,
      other_user_id := if u == sender_id then receiver_id else sender_id,
      last_message_at := timestamp, last_message_content := content }
  let cbu1 :=
    insertConvIndexRow
      (insertConvIndexRow s.conversations_by_user (cbuRow sender_id))
      (cbuRow receiver_id)
  (⟨messages1, mbu1, convs1, cbu1⟩,
   { id := message_id, conversation_id := conversation_id,
     sender_id := sender_id, receiver_id := receiver_id, content := content,
     created_at := timestamp, read_at := none })

/-- The per-row formatting done by both message reads. -/
def formatMessage (m : Msg) : MessageOut :=
  { id := m.message_id, conversation_id := m.conversation_id,
    sender_id := m.sender_id, receiver_id := m.receiver_id,
    content := m.content, created_at := m.timestamp }

/-- `MessageModel.get_conversation_messages`. -/
def get_conversation_messages (s : Store) (conversation_id : Nat)
    (page limit : Int) : Paginated MessageOut :=
  let all_messages := selectMessages s conversation_id
  let total := all_messages.length
  let sorted := List.insertionSort msgTsDescR all_messages
  let start_idx := (page - 1) * limit
  let end_idx := start_idx + limit
  let paginated := pySlice sorted start_idx end_idx
  { total := total, page := page, limit := limit,
    data := paginated.map formatMessage }

/-- `MessageModel.get_messages_before_timestamp`. -/
def get_messages_before_timestamp (s : Store) (conversation_id : Nat)
    (before_timestamp : Nat) (page limit : Int) : Paginated MessageOut :=
  let result := selectMessages s conversation_id
  let filtered :=
    result.filter (fun m => decide (m.timestamp < before_timestamp))
  let total := filtered.length
  let sorted := List.insertionSort msgTsDescR filtered
  let start_idx := (page - 1) * limit
  let end_idx := start_idx + limit
  let paginated := pySlice sorted start_idx end_idx
  { total := total, page := page, limit := limit,
    data := paginated.map formatMessage }

/-- The per-row formatting of a canonical conversation row. -/
def formatConversation (r : ConvRow) : ConvOut :=
  { id := r.conversation_id, user1_id := r.user1_id, user2_id := r.user2_id,
    last_message_at := r.last_message_at,
    last_message_content := r.last_message_content }

/-- `ConversationModel.get_user_conversations`: `total` comes from the
per-user index; each page entry is re-looked-up in the canonical table and
silently skipped when that lookup is empty. -/
def get_user_conversations (s : Store) (user_id : Nat) (page limit : Int) :
    Paginated ConvOut :=
  let all_conversations := selectUserConversations s user_id
  let total := all_conversations.length
  let start_idx := (page - 1) * limit
  let end_idx := start_idx + limit
  let paginated := pySlice all_conversations start_idx end_idx
  let data := paginated.filterMap (fun conv =>
    match selectConversationRows s conv.conversation_id with
    | [] => none
    | detail :: _ => some (formatConversation detail))
  { total := total, page := page, limit := limit, data := data }

/-- `ConversationModel.get_conversation`. -/
def get_conversation (s : Store) (conversation_id : Nat) : Option ConvOut :=
  match selectConversationRows s conversation_id with
  | [] => none
  | conv :: _ => some (formatConversation conv)

/-- The found-path formatting of `create_or_get_conversation`. -/
def formatConvFull (r : ConvRow) : ConvFull :=
  { id := r.conversation_id, user1_id := r.user1_id, user2_id := r.user2_id,
    created_at := r.created_at, last_message_at := r.last_message_at,
    last_message_content := r.last_message_content }

/-- The id-allocation step `new_id = (max(conversation_id) or 0) + 1`:
`MAX` over an empty table is null, and Python's `or` turns both null and 0
into 0. -/
def newConversationId (rows : List ConvRow) : Nat :=
  ((rows.map (fun r => r.conversation_id)).max?.getD 0) + 1

/-- `ConversationModel.create_or_get_conversation`.  The
`datetime.utcnow()` value is the explicit `now` argument. -/
def create_or_get_conversation (s : Store) (user1_id user2_id : Nat)
    (now : Nat) : Store × ConvFull :=
  let r1 := selectConversationsByPair s user1_id user2_id
  let result :=
    if r1.isEmpty then selectConversationsByPair s user2_id user1_id else r1
  match result with
  | conv :: _ => (s, formatConvFull conv)
  | [] =>
    let new_id := newConversationId s.conversations
    let row : ConvRow :=
      { conversation_id := new_id, user1_id := some user1_id,
        user2_id := some user2_id, created_at := some now,
        last_message_at := some now, last_message_content := none }
    ({ s with conversations := insertConversationRow s.conversations row },
     { id := new_id, user1_id := some user1_id, user2_id := some user2_id,
       created_at := some now, last_message_at := some now,
       last_message_content := none })

/-- Well-formedness of the `messages` table: primary keys are unique.
Cassandra guarantees this (every write upserts by primary key), and
`insertMessageRow` preserves it. -/
def MessagesWF (s : Store) : Prop :=
  s.messages.Pairwise (fun a b => msgKey a ≠ msgKey b)

instance (s : Store) : Decidable (MessagesWF s) :=
  inferInstanceAs
    (Decidable (s.messages.Pairwise (fun a b => msgKey a ≠ msgKey b)))

/-- The newest-first order promised for formatted messages: strictly
descending creation time, ties strictly ascending id. -/
def msgOutStrictR (a b : MessageOut) : Prop :=
  b.created_at < a.created_at ∨
    (a.created_at = b.created_at ∧ a.id < b.id)

/-- At most one orientation of any pair of distinct users matches a row of
the `conversations` table.  This holds in every state reachable by
sequential execution: the only code path that inserts a user-bearing row is
the create path of `create_or_get_conversation`, which runs only after both
orientation scans came back empty. -/
def PairScanInv (s : Store) : Prop :=
  ∀ u v : Nat, u ≠ v → selectConversationsByPair s u v = [] ∨
    selectConversationsByPair s v u = []

/-- The row inserted by the create path of `create_or_get_conversation`. -/
def newConvRow (s : Store) (u1 u2 now : Nat) : ConvRow :=
  { conversation_id := newConversationId s.conversations,
    user1_id := some u1, user2_id := some u2, created_at := some now,
    last_message_at := some now, last_message_content := none }

/-- The empty keyspace, the state right after `setup_db` runs. -/
def emptyStore : Store := ⟨[], [], [], []⟩

/-- A small populated keyspace used to instantiate the theorems:
conversation 1 between users 7 and 8 holds three messages, two of which
share timestamp 20; conversation 2 holds one message; conversation 3 has a
row but no messages. -/
def demoStore : Store where
  messages :=
    [⟨1, 10, 5, 7, 8, "a"⟩, ⟨1, 20, 9, 8, 7, "b"⟩, ⟨1, 20, 4, 7, 8, "c"⟩,
     ⟨2, 15, 6, 1, 2, "d"⟩]
  messages_by_user := []
  conversations :=
    [⟨1, some 7, some 8, some 1, some 20, some "b"⟩,
     ⟨3, some 5, some 6, some 2, some 9, none⟩]
  conversations_by_user := [⟨7, 1, 8, 20, "b"⟩, ⟨7, 3, 5, 9, "z"⟩]

/-- A keyspace whose per-user index references a conversation (id 2) that
has no row in the canonical `conversations` table. -/
def gapStore : Store where
  messages := []
  messages_by_user := []
  conversations := [⟨1, some 1, some 2, some 0, some 50, some "x"⟩]
  conversations_by_user := [⟨1, 1, 2, 50, "x"⟩, ⟨1, 2, 3, 40, "y"⟩]

/-! ### Basic facts about `pySlice` -/

theorem pySlice_sublist {α : Type} (l : List α) (a b : Int) :
    (pySlice l a b).Sublist l :=
  ((List.drop_sublist _ _).trans (List.take_sublist _ _))

theorem pySlice_eq_nil {α : Type} {l : List α} {a b : Int}
    (h : pyIdx l.length b ≤ pyIdx l.length a) : pySlice l a b = [] := by
  unfold pySlice
  refine List.drop_eq_nil_of_le ?_
  calc (l.take (pyIdx l.length b)).length ≤ pyIdx l.length b := by
        simp [List.length_take]
    _ ≤ pyIdx l.length a := h

theorem pySlice_all {α : Type} {l : List α} {N : Nat} (h : l.length ≤ N) :
    pySlice l 0 (N : Int) = l := by
  unfold pySlice pyIdx
  have hN : ¬((N : Int) < 0) := by omega
  have h0 : ¬((0 : Int) < 0) := by omega
  simp [hN, h0, Int.toNat_ofNat, Nat.min_eq_right h]

/-! ### Sortedness of the read pipelines -/

theorem selectMessages_sorted (s : Store) (cid : Nat) :
    List.Sorted msgClusterR (selectMessages s cid) :=
  List.sorted_insertionSort _ _

theorem sorted_tsDesc_of_cluster {l : List Msg}
    (h : List.Sorted msgClusterR l) : List.Sorted msgTsDescR l :=
  h.imp (by intro a b hab; unfold msgClusterR at hab; unfold msgTsDescR; omega)

theorem tsSort_eq_of_cluster_sorted {l : List Msg}
    (h : List.Sorted msgClusterR l) :
    List.insertionSort msgTsDescR l = l :=
  (sorted_tsDesc_of_cluster h).insertionSort_eq

theorem filter_cluster_sorted {l : List Msg} (p : Msg → Bool)
    (h : List.Sorted msgClusterR l) :
    List.Sorted msgClusterR (l.filter p) :=
  List.Pairwise.sublist (List.filter_sublist l) h

/-! ### `total` is always the full matching-set size -/

theorem total_get_conversation_messages (s : Store) (cid : Nat)
    (page limit : Int) :
    (get_conversation_messages s cid page limit).total =
      (s.messages.filter (fun m => m.conversation_id == cid)).length := by
  unfold get_conversation_messages selectMessages
  simp [List.length_insertionSort]

theorem total_get_messages_before_timestamp (s : Store) (cid t : Nat)
    (page limit : Int) :
    (get_messages_before_timestamp s cid t page limit).total =
      (s.messages.filter
        (fun m => m.conversation_id == cid && decide (m.timestamp < t))).length := by
  unfold get_messages_before_timestamp
  have hperm :
      ((selectMessages s cid).filter
          (fun m => decide (m.timestamp < t))).Perm
        ((s.messages.filter (fun m => m.conversation_id == cid)).filter
          (fun m => decide (m.timestamp < t))) :=
    (List.perm_insertionSort _ _).filter _
  have hlen := hperm.length_eq
  simp only [List.filter_filter] at hlen
  simp only [selectMessages] at hperm ⊢
  rw [hperm.length_eq, List.filter_filter]
  refine congrArg List.length (List.filter_congr ?_)
  intro m _
  exact Bool.and_comm _ _

theorem total_get_user_conversations (s : Store) (u : Nat)
    (page limit : Int) :
    (get_user_conversations s u page limit).total =
      (s.conversations_by_user.filter (fun e => e.user_id == u)).length := by
  unfold get_user_conversations selectUserConversations
  simp [List.length_insertionSort]

/-! ### Strict newest-first ordering of the message reads -/

theorem selectMessages_keys_pairwise (s : Store) (cid : Nat)
    (hwf : MessagesWF s) :
    (selectMessages s cid).Pairwise (fun a b => msgKey a ≠ msgKey b) := by
  have hkeys0 :
      (s.messages.filter (fun m => m.conversation_id == cid)).Pairwise
        (fun a b => msgKey a ≠ msgKey b) :=
    List.Pairwise.sublist (List.filter_sublist _) hwf
  have hperm := List.perm_insertionSort msgClusterR
      (s.messages.filter (fun m => m.conversation_id == cid))
  exact (List.Perm.pairwise_iff (fun hxy h => hxy h.symm) hperm).mpr hkeys0

theorem mem_selectMessages_cid {s : Store} {cid : Nat} {m : Msg}
    (hm : m ∈ selectMessages s cid) : m.conversation_id = cid := by
  have hperm := List.perm_insertionSort msgClusterR
      (s.messages.filter (fun m => m.conversation_id == cid))
  have hmem : m ∈ s.messages.filter (fun m => m.conversation_id == cid) :=
    hperm.mem_iff.mp hm
  have := (List.mem_filter.mp hmem).2
  exact beq_iff_eq.mp this

theorem pipeline_pairwise_strict (s : Store) (cid : Nat) (p : Msg → Bool)
    (hwf : MessagesWF s) :
    (List.insertionSort msgTsDescR ((selectMessages s cid).filter p)).Pairwise
      (fun a b : Msg => b.timestamp < a.timestamp ∨
        (a.timestamp = b.timestamp ∧ a.message_id < b.message_id)) := by
  have hsorted : List.Sorted msgClusterR ((selectMessages s cid).filter p) :=
    filter_cluster_sorted p (selectMessages_sorted s cid)
  rw [tsSort_eq_of_cluster_sorted hsorted]
  have hkeys :
      ((selectMessages s cid).filter p).Pairwise
        (fun a b => msgKey a ≠ msgKey b) :=
    List.Pairwise.sublist (List.filter_sublist _)
      (selectMessages_keys_pairwise s cid hwf)
  refine (hsorted.and hkeys).imp_of_mem ?_
  intro a b ha hb hR
  obtain ⟨hle, hne⟩ := hR
  have hca : a.conversation_id = cid :=
    mem_selectMessages_cid (List.mem_filter.mp ha).1
  have hcb : b.conversation_id = cid :=
    mem_selectMessages_cid (List.mem_filter.mp hb).1
  have hne' : ¬(a.timestamp = b.timestamp ∧ a.message_id = b.message_id) := by
    intro hand
    refine hne ?_
    unfold msgKey
    rw [hca, hcb, hand.1, hand.2]
  unfold msgClusterR at hle
  omega

/-! ### The before-timestamp read as a filtered full read -/

theorem selectMessages_length_le (s : Store) (cid : Nat) :
    (selectMessages s cid).length ≤ s.messages.length := by
  unfold selectMessages
  rw [List.length_insertionSort]
  exact List.length_filter_le _ _

theorem before_data_eq_filtered_data (s : Store) (cid t : Nat) :
    (get_messages_before_timestamp s cid t 1 (s.messages.length : Int)).data =
      ((get_conversation_messages s cid 1
          (s.messages.length : Int)).data).filter
        (fun m => decide (m.created_at < t)) := by
  have hsortedSel := selectMessages_sorted s cid
  have hfil : List.Sorted msgClusterR
      ((selectMessages s cid).filter (fun m => decide (m.timestamp < t))) :=
    filter_cluster_sorted _ hsortedSel
  unfold get_messages_before_timestamp get_conversation_messages
  simp only [tsSort_eq_of_cluster_sorted hfil,
    tsSort_eq_of_cluster_sorted hsortedSel]
  have h1 : ((1 : Int) - 1) * (s.messages.length : Int) = 0 := by ring
  rw [h1, zero_add,
    pySlice_all (le_trans (List.length_filter_le _ _)
      (selectMessages_length_le s cid)),
    pySlice_all (selectMessages_length_le s cid), List.filter_map]
  rfl

/-! ### Effects of the write path -/

theorem mem_insertMessageRow (rows : List Msg) (row : Msg) :
    row ∈ insertMessageRow rows row := by
  unfold insertMessageRow
  cases hAny : rows.any (fun r => msgKey r == msgKey row) with
  | false =>
    simp only [hAny, Bool.false_eq_true, if_false]
    exact List.mem_append.mpr (Or.inr (List.mem_singleton.mpr rfl))
  | true =>
    simp only [hAny, if_true]
    obtain ⟨r, hr, hkey⟩ := List.any_eq_true.mp hAny
    exact List.mem_map.mpr ⟨r, hr, by rw [if_pos hkey]⟩

theorem filter_update_ne_nil (rows : List ConvRow) (cid ts : Nat)
    (content : String) :
    (updateConversationLastMessage rows cid ts content).filter
      (fun r => r.conversation_id == cid) ≠ [] := by
  unfold updateConversationLastMessage
  cases hAny : rows.any (fun r => r.conversation_id == cid) with
  | false =>
    simp only [hAny, Bool.false_eq_true, if_false]
    refine List.ne_nil_of_mem (List.mem_filter.mpr
      ⟨List.mem_append.mpr (Or.inr (List.mem_singleton.mpr rfl)), ?_⟩)
    exact beq_self_eq_true cid
  | true =>
    simp only [hAny, if_true]
    obtain ⟨r, hr, hkey⟩ := List.any_eq_true.mp hAny
    refine List.ne_nil_of_mem
      (List.mem_filter.mpr ⟨List.mem_map.mpr ⟨r, hr, rfl⟩, ?_⟩)
    rw [if_pos hkey]
    exact hkey

theorem mem_filter_update (rows : List ConvRow) (cid ts : Nat)
    (content : String) :
    ∀ r ∈ (updateConversationLastMessage rows cid ts content).filter
      (fun r => r.conversation_id == cid),
      r.last_message_content = some content := by
  intro r hr
  obtain ⟨hmem, hpred⟩ := List.mem_filter.mp hr
  unfold updateConversationLastMessage at hmem
  cases hAny : rows.any (fun r => r.conversation_id == cid) with
  | false =>
    rw [hAny] at hmem
    simp only [Bool.false_eq_true, if_false] at hmem
    rcases List.mem_append.mp hmem with hl | hr1
    · exact absurd hpred
        (by simpa using (List.any_eq_false.mp hAny) r hl)
    · rw [List.mem_singleton.mp hr1]
  | true =>
    rw [hAny] at hmem
    simp only [if_true] at hmem
    obtain ⟨x, hx, hfx⟩ := List.mem_map.mp hmem
    by_cases hxc : (x.conversation_id == cid) = true
    · rw [if_pos hxc] at hfx
      rw [← hfx]
    · rw [if_neg hxc] at hfx
      rw [← hfx] at hpred
      exact absurd hpred hxc

theorem get_conversation_update (rows : List ConvRow) (other : Store)
    (cid ts : Nat) (content : String)
    (hconv : other.conversations =
      updateConversationLastMessage rows cid ts content) :
    ∃ c, get_conversation other cid = some c ∧
      c.last_message_content = some content := by
  unfold get_conversation selectConversationRows
  rw [hconv]
  obtain ⟨a, l, hal⟩ := List.exists_cons_of_ne_nil
    (filter_update_ne_nil rows cid ts content)
  rw [hal]
  refine ⟨formatConversation a, rfl, ?_⟩
  have ha : a ∈ (updateConversationLastMessage rows cid ts content).filter
      (fun r => r.conversation_id == cid) := by
    rw [hal]; exact List.mem_cons_self a l
  exact mem_filter_update rows cid ts content a ha

/-! ### Behaviour of `create_or_get_conversation` -/

theorem conv_id_lt_newConversationId (rows : List ConvRow) :
    ∀ r ∈ rows, r.conversation_id < newConversationId rows := by
  intro r hr
  unfold newConversationId
  cases hmax : (rows.map (fun r => r.conversation_id)).max? with
  | none =>
    have hmem := List.mem_map_of_mem (fun r => r.conversation_id) hr
    rw [List.max?_eq_none_iff.mp hmax] at hmem
    exact absurd hmem (List.not_mem_nil _)
  | some m =>
    have hub : ∀ b ∈ rows.map (fun r => r.conversation_id), b ≤ m :=
      (List.max?_le_iff (fun a b c => max_le_iff) hmax).mp (le_refl m)
    have := hub _ (List.mem_map_of_mem (fun r => r.conversation_id) hr)
    simp only [Option.getD_some]
    omega

theorem newConversationId_attained (rows : List ConvRow) (h : rows ≠ []) :
    ∃ r ∈ rows, newConversationId rows = r.conversation_id + 1 := by
  cases hmax : (rows.map (fun r => r.conversation_id)).max? with
  | none =>
    have := List.max?_eq_none_iff.mp hmax
    cases rows with
    | nil => exact absurd rfl h
    | cons a l => simp at this
  | some m =>
    have hmem : m ∈ rows.map (fun r => r.conversation_id) :=
      List.max?_mem (fun a b => max_choice a b) hmax
    obtain ⟨r, hr, hrm⟩ := List.mem_map.mp hmem
    refine ⟨r, hr, ?_⟩
    unfold newConversationId
    rw [hmax, Option.getD_some, hrm]

theorem newConversationId_empty : newConversationId [] = 1 := rfl

theorem insertConversationRow_new (rows : List ConvRow) (row : ConvRow)
    (h : ∀ r ∈ rows, r.conversation_id ≠ row.conversation_id) :
    insertConversationRow rows row = rows ++ [row] := by
  unfold insertConversationRow
  have hAny : rows.any
      (fun r => r.conversation_id == row.conversation_id) = false :=
    List.any_eq_false.mpr (fun r hr => by simpa using h r hr)
  simp only [hAny, Bool.false_eq_true, if_false]

theorem cog_found (now : Nat) {s : Store} {u1 u2 : Nat} {c : ConvRow}
    {l : List ConvRow}
    (h : selectConversationsByPair s u1 u2 = c :: l) :
    create_or_get_conversation s u1 u2 now = (s, formatConvFull c) := by
  unfold create_or_get_conversation
  rw [h]
  simp

theorem cog_found_rev (now : Nat) {s : Store} {u1 u2 : Nat} {c : ConvRow}
    {l : List ConvRow}
    (h1 : selectConversationsByPair s u1 u2 = [])
    (h2 : selectConversationsByPair s u2 u1 = c :: l) :
    create_or_get_conversation s u1 u2 now = (s, formatConvFull c) := by
  unfold create_or_get_conversation
  rw [h1, h2]
  simp

theorem cog_create (now : Nat) {s : Store} {u1 u2 : Nat}
    (h1 : selectConversationsByPair s u1 u2 = [])
    (h2 : selectConversationsByPair s u2 u1 = []) :
    create_or_get_conversation s u1 u2 now =
      ({ s with conversations :=
          s.conversations ++ [newConvRow s u1 u2 now] },
       { id := newConversationId s.conversations, user1_id := some u1,
         user2_id := some u2, created_at := some now,
         last_message_at := some now, last_message_content := none }) := by
  unfold create_or_get_conversation
  rw [h1, h2]
  simp only [List.isEmpty_nil, if_true]
  unfold newConvRow
  rw [insertConversationRow_new s.conversations _
    (fun r hr => Nat.ne_of_lt (conv_id_lt_newConversationId
      s.conversations r hr))]

theorem selectPair_append_self (s : Store) (u1 u2 now : Nat)
    (h1 : selectConversationsByPair s u1 u2 = []) :
    selectConversationsByPair
      { s with conversations := s.conversations ++ [newConvRow s u1 u2 now] }
      u1 u2 = [newConvRow s u1 u2 now] := by
  unfold selectConversationsByPair at h1 ⊢
  simp only [List.filter_append, h1, List.nil_append]
  simp [newConvRow]

theorem selectPair_append_rev (s : Store) (u1 u2 now : Nat) (hne : u2 ≠ u1)
    (h2 : selectConversationsByPair s u2 u1 = []) :
    selectConversationsByPair
      { s with conversations := s.conversations ++ [newConvRow s u1 u2 now] }
      u2 u1 = [] := by
  unfold selectConversationsByPair at h2 ⊢
  simp only [List.filter_append, h2, List.nil_append]
  simp [newConvRow, Ne.symm hne]

/-! ### The N+1 lookup inside `get_user_conversations` -/

theorem length_lookup_filterMap (s : Store) (l : List ConvIndexEntry) :
    (l.filterMap (fun conv =>
      match selectConversationRows s conv.conversation_id with
      | [] => none
      | detail :: _ => some (formatConversation detail))).length =
    (l.filter (fun e => s.conversations.any
      (fun r => r.conversation_id == e.conversation_id))).length := by
  induction l with
  | nil => rfl
  | cons e tl ih =>
    cases hsel : selectConversationRows s e.conversation_id with
    | nil =>
      have hAny : s.conversations.any
          (fun r => r.conversation_id == e.conversation_id) = false :=
        List.any_eq_false.mpr (List.filter_eq_nil_iff.mp hsel)
      simp only [List.filterMap_cons, hsel, List.filter_cons, hAny,
        Bool.false_eq_true, if_false, ih]
    | cons d ds =>
      have hd : d ∈ selectConversationRows s e.conversation_id := by
        rw [hsel]; exact List.mem_cons_self d ds
      obtain ⟨hdm, hdp⟩ := List.mem_filter.mp hd
      have hAny : s.conversations.any
          (fun r => r.conversation_id == e.conversation_id) = true :=
        List.any_eq_true.mpr ⟨d, hdm, hdp⟩
      simp only [List.filterMap_cons, hsel, List.filter_cons, hAny, if_true,
        ih, List.length_cons]

theorem pySlice_page_empty {α : Type} (l : List α) (page limit : Int)
    (h : (1 ≤ page ∧ 0 ≤ limit ∧ (l.length : Int) ≤ (page - 1) * limit) ∨
      page = 0 ∨ limit = 0) :
    pySlice l ((page - 1) * limit) ((page - 1) * limit + limit) = [] := by
  rcases h with ⟨h1, h2, h3⟩ | h | h
  · refine pySlice_eq_nil ?_
    have hs0 : 0 ≤ (page - 1) * limit := mul_nonneg (by omega) h2
    unfold pyIdx
    rw [if_neg (by omega : ¬((page - 1) * limit + limit < 0)),
      if_neg (by omega : ¬((page - 1) * limit < 0))]
    have hmin : min ((page - 1) * limit).toNat l.length = l.length :=
      Nat.min_eq_right (by omega)
    rw [hmin]
    exact min_le_right _ _
  · refine pySlice_eq_nil ?_
    have hstop : (page - 1) * limit + limit = 0 := by rw [h]; ring
    rw [hstop]
    unfold pyIdx
    rw [if_neg (by omega : ¬((0 : Int) < 0))]
    simp
  · refine pySlice_eq_nil ?_
    rw [h, add_zero]

theorem gcm_data_empty (s : Store) (cid : Nat) (page limit : Int)
    (h : (1 ≤ page ∧ 0 ≤ limit ∧
        (((get_conversation_messages s cid page limit).total : Nat) : Int) ≤
          (page - 1) * limit) ∨ page = 0 ∨ limit = 0) :
    (get_conversation_messages s cid page limit).data = [] := by
  unfold get_conversation_messages at h ⊢
  dsimp only at h ⊢
  have hlist : (1 ≤ page ∧ 0 ≤ limit ∧
      (((List.insertionSort msgTsDescR (selectMessages s cid)).length :
        Nat) : Int) ≤ (page - 1) * limit) ∨ page = 0 ∨ limit = 0 := by
    rw [List.length_insertionSort]
    exact h
  rw [pySlice_page_empty _ page limit hlist, List.map_nil]

theorem gmbt_data_empty (s : Store) (cid t : Nat) (page limit : Int)
    (h : (1 ≤ page ∧ 0 ≤ limit ∧
        (((get_messages_before_timestamp s cid t page limit).total :
          Nat) : Int) ≤ (page - 1) * limit) ∨ page = 0 ∨ limit = 0) :
    (get_messages_before_timestamp s cid t page limit).data = [] := by
  unfold get_messages_before_timestamp at h ⊢
  dsimp only at h ⊢
  have hlist : (1 ≤ page ∧ 0 ≤ limit ∧
      (((List.insertionSort msgTsDescR
          ((selectMessages s cid).filter
            (fun m => decide (m.timestamp < t)))).length : Nat) : Int) ≤
        (page - 1) * limit) ∨ page = 0 ∨ limit = 0 := by
    rw [List.length_insertionSort]
    exact h
  rw [pySlice_page_empty _ page limit hlist, List.map_nil]

theorem guc_data_empty (s : Store) (u : Nat) (page limit : Int)
    (h : (1 ≤ page ∧ 0 ≤ limit ∧
        (((get_user_conversations s u page limit).total : Nat) : Int) ≤
          (page - 1) * limit) ∨ page = 0 ∨ limit = 0) :
    (get_user_conversations s u page limit).data = [] := by
  unfold get_user_conversations at h ⊢
  dsimp only at h ⊢
  rw [pySlice_page_empty _ page limit h, List.filterMap_nil]

/-! ### The hypotheses of C2 and C5 are sequential-execution invariants -/

theorem MessagesWF_emptyStore : MessagesWF emptyStore := List.Pairwise.nil

theorem insertMessageRow_keys_pairwise (rows : List Msg) (row : Msg)
    (h : rows.Pairwise (fun a b => msgKey a ≠ msgKey b)) :
    (insertMessageRow rows row).Pairwise
      (fun a b => msgKey a ≠ msgKey b) := by
  unfold insertMessageRow
  cases hAny : rows.any (fun r => msgKey r == msgKey row) with
  | true =>
    simp only [hAny, if_true]
    have hkey : ∀ r : Msg,
        msgKey (if (msgKey r == msgKey row) = true then row else r) =
          msgKey r := by
      intro r
      by_cases hk : (msgKey r == msgKey row) = true
      · rw [if_pos hk, beq_iff_eq.mp hk]
      · rw [if_neg hk]
    refine List.pairwise_map.mpr (h.imp ?_)
    intro a b hne
    rw [hkey a, hkey b]
    exact hne
  | false =>
    simp only [hAny, Bool.false_eq_true, if_false]
    rw [List.pairwise_append]
    refine ⟨h, List.pairwise_singleton _ _, ?_⟩
    intro a ha b hb
    rw [List.mem_singleton.mp hb]
    simpa using List.any_eq_false.mp hAny a ha

theorem create_message_preserves_MessagesWF (s : Store)
    (sender receiver : Nat) (content : String) (cid ts mid : Nat)
    (h : MessagesWF s) :
    MessagesWF (create_message s sender receiver content cid ts mid).1 :=
  insertMessageRow_keys_pairwise s.messages _ h

theorem cog_messages_unchanged (s : Store) (u1 u2 now : Nat) :
    ((create_or_get_conversation s u1 u2 now).1).messages = s.messages := by
  unfold create_or_get_conversation
  dsimp only
  split
  · rfl
  · rfl

theorem cog_preserves_MessagesWF (s : Store) (u1 u2 now : Nat)
    (h : MessagesWF s) :
    MessagesWF ((create_or_get_conversation s u1 u2 now).1) := by
  unfold MessagesWF
  rw [cog_messages_unchanged]
  exact h

theorem PairScanInv_emptyStore : PairScanInv emptyStore :=
  fun _ _ _ => Or.inl rfl

theorem update_preserves_selectPair_nil (rows : List ConvRow)
    (cid ts : Nat) (content : String) (u v : Nat) :
    ((updateConversationLastMessage rows cid ts content).filter
        (fun r => r.user1_id == some u && r.user2_id == some v) = []) ↔
      (rows.filter
        (fun r => r.user1_id == some u && r.user2_id == some v) = []) := by
  unfold updateConversationLastMessage
  cases hAny : rows.any (fun r => r.conversation_id == cid) with
  | true =>
    simp only [hAny, if_true]
    have hpres : ∀ r : ConvRow,
        ((if (r.conversation_id == cid) = true then
            { r with last_message_at := some ts,
                     last_message_content := some content }
          else r).user1_id == some u &&
          ((if (r.conversation_id == cid) = true then
            { r with last_message_at := some ts,
                     last_message_content := some content }
          else r).user2_id == some v)) =
        (r.user1_id == some u && r.user2_id == some v) := by
      intro r
      by_cases hk : (r.conversation_id == cid) = true
      · rw [if_pos hk]
      · rw [if_neg hk]
    rw [List.filter_eq_nil_iff, List.filter_eq_nil_iff]
    constructor
    · intro hmap r hr
      have hmem := List.mem_map_of_mem
        (fun r : ConvRow => if (r.conversation_id == cid) = true then
          { r with last_message_at := some ts,
                   last_message_content := some content }
        else r) hr
      have hx := hmap _ hmem
      rwa [hpres r] at hx
    · intro hrows x hx
      obtain ⟨r, hr, hfr⟩ := List.mem_map.mp hx
      rw [← hfr, hpres r]
      exact hrows r hr
  | false =>
    simp only [hAny, Bool.false_eq_true, if_false]
    rw [List.filter_append]
    simp

theorem create_message_preserves_PairScanInv (s : Store)
    (sender receiver : Nat) (content : String) (cid ts mid : Nat)
    (h : PairScanInv s) :
    PairScanInv (create_message s sender receiver content cid ts mid).1 := by
  intro u v huv
  rcases h u v huv with hl | hr
  · exact Or.inl ((update_preserves_selectPair_nil s.conversations cid ts
      content u v).mpr hl)
  · exact Or.inr ((update_preserves_selectPair_nil s.conversations cid ts
      content v u).mpr hr)

theorem selectPair_append_row (s : Store) (u1 u2 now u v : Nat) :
    selectConversationsByPair
      { s with conversations := s.conversations ++ [newConvRow s u1 u2 now] }
      u v =
    selectConversationsByPair s u v ++
      (if u1 = u ∧ u2 = v then [newConvRow s u1 u2 now] else []) := by
  unfold selectConversationsByPair
  rw [List.filter_append]
  congr 1
  by_cases h : u1 = u ∧ u2 = v
  · rw [if_pos h]
    simp [newConvRow, h.1, h.2]
  · rw [if_neg h]
    refine List.filter_eq_nil_iff.mpr ?_
    intro a ha
    rw [List.mem_singleton.mp ha]
    intro hp
    simp only [newConvRow, Bool.and_eq_true, beq_iff_eq,
      Option.some.injEq] at hp
    exact h hp

theorem cog_preserves_PairScanInv (s : Store) (u1 u2 now : Nat)
    (hinv : PairScanInv s) :
    PairScanInv ((create_or_get_conversation s u1 u2 now).1) := by
  cases hAB : selectConversationsByPair s u1 u2 with
  | cons c l =>
    rw [cog_found now hAB]
    exact hinv
  | nil =>
    cases hBA : selectConversationsByPair s u2 u1 with
    | cons c l =>
      rw [cog_found_rev now hAB hBA]
      exact hinv
    | nil =>
      rw [cog_create now hAB hBA]
      intro u v huv
      rw [selectPair_append_row, selectPair_append_row]
      by_cases h1 : u1 = u ∧ u2 = v
      · obtain ⟨e1, e2⟩ := h1
        subst e1
        subst e2
        refine Or.inr ?_
        rw [if_neg (fun hc => huv hc.1), List.append_nil, hBA]
      · by_cases h2 : u1 = v ∧ u2 = u
        · obtain ⟨e1, e2⟩ := h2
          subst e1
          subst e2
          refine Or.inl ?_
          rw [if_neg h1, List.append_nil, hBA]
        · rw [if_neg h1, if_neg h2, List.append_nil, List.append_nil]
          exact hinv u v huv

/-! ## The claims -/

/-- C1 (code defect, evaluated at the failing input): starting from the
empty keyspace, create the conversation between users 1 and 2, then send
two messages inside it (timestamps 10 and 20).  Because `last_message_at`
is part of the `conversations_by_user` primary key, the second
`create_message` inserts a second index row instead of replacing the first,
so `getUserConversations(1, page=1, limit=20)` reports `total = 2`, not the
claimed 1. -/
theorem user_conversation_index_duplicates :
    (get_user_conversations
      (create_message
        (create_message (create_or_get_conversation emptyStore 1 2 5).1
          1 2 "hello" (create_or_get_conversation emptyStore 1 2 5).2.id
          10 100).1
        2 1 "world" (create_or_get_conversation emptyStore 1 2 5).2.id
        20 101).1
      1 1 20).total = 2 := by decide

/-- C2: in any store whose `messages` table has unique primary keys (as
Cassandra guarantees), every page returned by `get_conversation_messages`
and by `get_messages_before_timestamp` is strictly descending by creation
timestamp, with ties at equal timestamps broken by strictly ascending
message id. -/
theorem message_reads_strictly_newest_first (s : Store) (cid t : Nat)
    (page limit : Int) (hwf : MessagesWF s) :
    ((get_conversation_messages s cid page limit).data).Pairwise
      msgOutStrictR ∧
    ((get_messages_before_timestamp s cid t page limit).data).Pairwise
      msgOutStrictR := by
  constructor
  · unfold get_conversation_messages
    dsimp only
    refine List.pairwise_map.mpr ?_
    refine List.Pairwise.sublist (pySlice_sublist _ _ _) ?_
    have h := pipeline_pairwise_strict s cid (fun _ => true) hwf
    rw [List.filter_true] at h
    exact h.imp (fun hab => hab)
  · unfold get_messages_before_timestamp
    dsimp only
    refine List.pairwise_map.mpr ?_
    refine List.Pairwise.sublist (pySlice_sublist _ _ _) ?_
    exact (pipeline_pairwise_strict s cid _ hwf).imp (fun hab => hab)

/-- C2 witness: the ordering theorem applied to a concrete store whose
conversation 1 contains three messages, two of them sharing
timestamp 20. -/
theorem message_reads_strictly_newest_first_witness :
    MessagesWF demoStore ∧
    ((get_conversation_messages demoStore 1 1 20).data).Pairwise
      msgOutStrictR :=
  ⟨by decide,
   (message_reads_strictly_newest_first demoStore 1 0 1 20 (by decide)).1⟩

/-- C3: for every store and every requested page and limit, the `total`
field of each of the three paginated reads equals the size of the entire
matching set: all messages of the conversation, all of them strictly
before the bound, and all index entries of the user, respectively. -/
theorem paginated_total_is_full_count (s : Store) (cid t u : Nat)
    (page limit : Int) :
    (get_conversation_messages s cid page limit).total =
      (s.messages.filter (fun m => m.conversation_id == cid)).length ∧
    (get_messages_before_timestamp s cid t page limit).total =
      (s.messages.filter (fun m =>
        m.conversation_id == cid && decide (m.timestamp < t))).length ∧
    (get_user_conversations s u page limit).total =
      (s.conversations_by_user.filter (fun e => e.user_id == u)).length :=
  ⟨total_get_conversation_messages s cid page limit,
   total_get_messages_before_timestamp s cid t page limit,
   total_get_user_conversations s u page limit⟩

/-- C4: read in one full page, `get_messages_before_timestamp` returns
exactly the messages of `get_conversation_messages` whose creation
timestamp is strictly below the bound — messages at exactly the bound are
excluded. -/
theorem before_timestamp_is_strict_filter (s : Store) (cid t : Nat) :
    (get_messages_before_timestamp s cid t 1
        (s.messages.length : Int)).data =
      ((get_conversation_messages s cid 1
          (s.messages.length : Int)).data).filter
        (fun m => decide (m.created_at < t)) :=
  before_data_eq_filtered_data s cid t

/-- C5: calling `create_or_get_conversation` twice sequentially returns the
same conversation id both times and the second call inserts nothing — for
both argument orderings.  The hypothesis rules out a store already holding
the pair in both orientations at once, a state sequential execution never
creates (the create path runs only when both orientation scans are
empty). -/
theorem cog_sequential_idempotent (s : Store) (A B t1 t2 : Nat)
    (h : A = B ∨ selectConversationsByPair s A B = [] ∨
      selectConversationsByPair s B A = []) :
    ((create_or_get_conversation
        (create_or_get_conversation s A B t1).1 A B t2).2.id =
      (create_or_get_conversation s A B t1).2.id ∧
     (create_or_get_conversation
        (create_or_get_conversation s A B t1).1 A B t2).1 =
      (create_or_get_conversation s A B t1).1) ∧
    ((create_or_get_conversation
        (create_or_get_conversation s A B t1).1 B A t2).2.id =
      (create_or_get_conversation s A B t1).2.id ∧
     (create_or_get_conversation
        (create_or_get_conversation s A B t1).1 B A t2).1 =
      (create_or_get_conversation s A B t1).1) := by
  cases hAB : selectConversationsByPair s A B with
  | cons c l =>
    rw [cog_found t1 hAB]
    dsimp only
    constructor
    · rw [cog_found t2 hAB]
      exact ⟨rfl, rfl⟩
    · rcases h with hEq | h1 | h2
      · subst hEq
        rw [cog_found t2 hAB]
        exact ⟨rfl, rfl⟩
      · rw [hAB] at h1
        exact absurd h1 (List.cons_ne_nil c l)
      · rw [cog_found_rev t2 h2 hAB]
        exact ⟨rfl, rfl⟩
  | nil =>
    cases hBA : selectConversationsByPair s B A with
    | cons c l =>
      rw [cog_found_rev t1 hAB hBA]
      dsimp only
      constructor
      · rw [cog_found_rev t2 hAB hBA]
        exact ⟨rfl, rfl⟩
      · rw [cog_found t2 hBA]
        exact ⟨rfl, rfl⟩
    | nil =>
      rw [cog_create t1 hAB hBA]
      dsimp only
      have hS1AB := selectPair_append_self s A B t1 hAB
      constructor
      · rw [cog_found t2 hS1AB]
        exact ⟨rfl, rfl⟩
      · by_cases hab : B = A
        · subst hab
          rw [cog_found t2 hS1AB]
          exact ⟨rfl, rfl⟩
        · have hS1BA := selectPair_append_rev s A B t1 hab hBA
          rw [cog_found_rev t2 hS1BA hS1AB]
          exact ⟨rfl, rfl⟩

/-- C5 witness: both orderings of the second call, starting from the empty
store, return the id allocated by the first call and leave the store
untouched. -/
theorem cog_sequential_idempotent_witness :
    (create_or_get_conversation
        (create_or_get_conversation emptyStore 1 2 5).1 2 1 6).2.id =
      (create_or_get_conversation emptyStore 1 2 5).2.id :=
  (cog_sequential_idempotent emptyStore 1 2 5 6
    (Or.inr (Or.inl rfl))).2.1

/-- C6: after `create_message`, the formatted message — with identical id,
content, sender and receiver — is a member of the full first page of
`get_conversation_messages`, and `get_conversation` on that conversation
now reports `last_message_content` equal to the new content. -/
theorem create_message_round_trip (s : Store) (sender receiver : Nat)
    (content : String) (cid ts mid : Nat) :
    ({ id := mid, conversation_id := cid, sender_id := sender,
       receiver_id := receiver, content := content, created_at := ts } :
        MessageOut) ∈
      (get_conversation_messages
        (create_message s sender receiver content cid ts mid).1 cid 1
        ((((create_message s sender receiver content cid ts
            mid).1).messages.length : Nat) : Int)).data ∧
    ∃ c, get_conversation
        (create_message s sender receiver content cid ts mid).1 cid =
          some c ∧
      c.last_message_content = some content := by
  constructor
  · unfold get_conversation_messages
    dsimp only
    rw [tsSort_eq_of_cluster_sorted (selectMessages_sorted _ cid)]
    have h1 : ((1 : Int) - 1) *
        ((((create_message s sender receiver content cid ts
          mid).1).messages.length : Nat) : Int) = 0 := by ring
    rw [h1, zero_add, pySlice_all (selectMessages_length_le _ cid)]
    refine List.mem_map.mpr
      ⟨⟨cid, ts, mid, sender, receiver, content⟩, ?_, rfl⟩
    have hmem : (⟨cid, ts, mid, sender, receiver, content⟩ : Msg) ∈
        ((create_message s sender receiver content cid ts mid).1).messages :=
      mem_insertMessageRow s.messages _
    have hmemf : (⟨cid, ts, mid, sender, receiver, content⟩ : Msg) ∈
        (((create_message s sender receiver content cid ts
          mid).1).messages).filter (fun m => m.conversation_id == cid) :=
      List.mem_filter.mpr ⟨hmem, beq_self_eq_true cid⟩
    unfold selectMessages
    exact (List.perm_insertionSort _ _).mem_iff.mpr hmemf
  · exact get_conversation_update s.conversations _ cid ts content rfl

/-- C7 counterexample: on a conversation with three messages,
`page = -1` (which is ≤ 0) with `limit = 1` returns a non-empty data list
sliced from the middle of the set, so the claim that every `page ≤ 0`
request yields empty data is false. -/
theorem negative_page_returns_interior_slice :
    (get_conversation_messages demoStore 1 (-1) 1).data =
      [{ id := 9, conversation_id := 1, sender_id := 8, receiver_id := 7,
         content := "b", created_at := 20 }] := by decide

/-- C7 (amended): every page strictly beyond the last non-empty page (with
page ≥ 1 and limit ≥ 0), every `page = 0` request and every `limit = 0`
request yields an empty data list, never an error, while the returned
`page` and `limit` echo the request and `total` still counts the full
matching set.  (For negative `page` or `limit` Python slice semantics
apply and can return interior data, as the counterexample shows.) -/
theorem out_of_range_pages_yield_empty_data (s : Store) (cid t u : Nat)
    (page limit : Int) :
    ((1 ≤ page ∧ 0 ≤ limit ∧
        (((get_conversation_messages s cid page limit).total : Nat) :
          Int) ≤ (page - 1) * limit) ∨ page = 0 ∨ limit = 0 →
      (get_conversation_messages s cid page limit).data = []) ∧
    ((1 ≤ page ∧ 0 ≤ limit ∧
        (((get_messages_before_timestamp s cid t page limit).total :
          Nat) : Int) ≤ (page - 1) * limit) ∨ page = 0 ∨ limit = 0 →
      (get_messages_before_timestamp s cid t page limit).data = []) ∧
    ((1 ≤ page ∧ 0 ≤ limit ∧
        (((get_user_conversations s u page limit).total : Nat) : Int) ≤
          (page - 1) * limit) ∨ page = 0 ∨ limit = 0 →
      (get_user_conversations s u page limit).data = []) ∧
    (get_conversation_messages s cid page limit).page = page ∧
    (get_conversation_messages s cid page limit).limit = limit ∧
    (get_messages_before_timestamp s cid t page limit).page = page ∧
    (get_messages_before_timestamp s cid t page limit).limit = limit ∧
    (get_user_conversations s u page limit).page = page ∧
    (get_user_conversations s u page limit).limit = limit ∧
    (get_conversation_messages s cid page limit).total =
      (s.messages.filter (fun m => m.conversation_id == cid)).length ∧
    (get_user_conversations s u page limit).total =
      (s.conversations_by_user.filter (fun e => e.user_id == u)).length :=
  ⟨gcm_data_empty s cid page limit, gmbt_data_empty s cid t page limit,
   guc_data_empty s u page limit, rfl, rfl, rfl, rfl, rfl, rfl,
   total_get_conversation_messages s cid page limit,
   total_get_user_conversations s u page limit⟩

/-- C7 witness: page 5 of a 3-message conversation is empty. -/
theorem out_of_range_pages_yield_empty_data_witness :
    (get_conversation_messages demoStore 1 5 2).data = [] :=
  (out_of_range_pages_yield_empty_data demoStore 1 0 7 5 2).1
    (Or.inl ⟨by decide, by decide, by decide⟩)

/-- C8: when neither orientation of the pair matches an existing row, the
id allocated by `create_or_get_conversation` is strictly greater than
every stored conversation id, equals some stored id plus one whenever the
table is non-empty (that is, the maximum plus one), and equals 1 on an
empty table. -/
theorem new_conversation_id_is_max_plus_one (s : Store) (A B now : Nat)
    (h1 : selectConversationsByPair s A B = [])
    (h2 : selectConversationsByPair s B A = []) :
    (∀ r ∈ s.conversations, r.conversation_id <
      (create_or_get_conversation s A B now).2.id) ∧
    (s.conversations ≠ [] → ∃ r ∈ s.conversations,
      (create_or_get_conversation s A B now).2.id =
        r.conversation_id + 1) ∧
    (s.conversations = [] →
      (create_or_get_conversation s A B now).2.id = 1) := by
  rw [cog_create now h1 h2]
  dsimp only
  refine ⟨conv_id_lt_newConversationId s.conversations,
    fun hne => newConversationId_attained s.conversations hne,
    fun hnil => by rw [hnil]; exact newConversationId_empty⟩

/-- C8 witness: on a store whose conversation ids are 1 and 3 and which
holds no row for the pair (4, 9), the allocated id is a stored id plus
one. -/
theorem new_conversation_id_is_max_plus_one_witness :
    ∃ r ∈ demoStore.conversations,
      (create_or_get_conversation demoStore 4 9 99).2.id =
        r.conversation_id + 1 :=
  (new_conversation_id_is_max_plus_one demoStore 4 9 99 (by decide)
    (by decide)).2.1 (by decide)

/-- C9: `get_conversation` returns `none` exactly when no row with the
requested id exists (absence is an ordinary return value of the total
function, not an exception), and any `some` answer is the formatted content
— id, both participant ids, `last_message_at`, `last_message_content` — of
a stored row with that id. -/
theorem get_conversation_absent_iff (s : Store) (cid : Nat) :
    (get_conversation s cid = none ↔
      ∀ r ∈ s.conversations, r.conversation_id ≠ cid) ∧
    (∀ c, get_conversation s cid = some c →
      ∃ r ∈ s.conversations, r.conversation_id = cid ∧
        c = formatConversation r) := by
  constructor
  · cases hsel : selectConversationRows s cid with
    | nil =>
      constructor
      · intro _ r hr hcid
        have hmem : r ∈ selectConversationRows s cid :=
          List.mem_filter.mpr ⟨hr, by simpa using hcid⟩
        rw [hsel] at hmem
        exact absurd hmem (List.not_mem_nil r)
      · intro _
        unfold get_conversation
        rw [hsel]
    | cons a l =>
      constructor
      · intro hnone
        unfold get_conversation at hnone
        rw [hsel] at hnone
        exact absurd hnone (by simp)
      · intro hall
        have ha : a ∈ selectConversationRows s cid := by
          rw [hsel]
          exact List.mem_cons_self a l
        obtain ⟨ham, hap⟩ := List.mem_filter.mp ha
        exact absurd (beq_iff_eq.mp hap) (hall a ham)
  · intro c hc
    unfold get_conversation at hc
    cases hsel : selectConversationRows s cid with
    | nil =>
      rw [hsel] at hc
      exact absurd hc (by simp)
    | cons a l =>
      rw [hsel] at hc
      have ha : a ∈ selectConversationRows s cid := by
        rw [hsel]
        exact List.mem_cons_self a l
      obtain ⟨ham, hap⟩ := List.mem_filter.mp ha
      refine ⟨a, ham, beq_iff_eq.mp hap, ?_⟩
      simpa using hc.symm

/-- C9 witness: no conversation 99 exists in the demo store, so the lookup
returns `none`. -/
theorem get_conversation_absent_iff_witness :
    get_conversation demoStore 99 = none :=
  (get_conversation_absent_iff demoStore 99).1.mpr (by decide)

/-- C10: `total` of `get_user_conversations` counts every per-user index
entry, while `data` keeps only the page entries whose conversation id still
has a canonical `conversations` row — entries with a missing canonical row
are silently dropped.  Concretely, on a store whose index holds two entries
but whose canonical table holds only one of the two conversations, page 1
with limit 2 reports `total = 2` yet returns a single item, with no
error. -/
theorem user_conversations_total_counts_omitted_entries :
    (∀ (s : Store) (u : Nat) (page limit : Int),
      (get_user_conversations s u page limit).total =
        (s.conversations_by_user.filter (fun e => e.user_id == u)).length ∧
      (get_user_conversations s u page limit).data.length =
        ((pySlice (selectUserConversations s u) ((page - 1) * limit)
            ((page - 1) * limit + limit)).filter
          (fun e => s.conversations.any
            (fun r => r.conversation_id == e.conversation_id))).length) ∧
    (get_user_conversations gapStore 1 1 2).total = 2 ∧
    (get_user_conversations gapStore 1 1 2).data.length = 1 := by
  refine ⟨fun s u page limit =>
    ⟨total_get_user_conversations s u page limit, ?_⟩, by decide, by decide⟩
  unfold get_user_conversations
  dsimp only
  exact length_lookup_filterMap s _

end Messenger
